import Mathlib

/-!
Verification of the nearest-neighbor station-to-grid matching step of
gridwxcomp (file prep_input.py).

The embedding models:
  * gridMET_centroid — the pure centroid calculator, over exact rationals,
    with Python int() truncation toward zero (pyInt);
  * the KDTree build/query of scipy.spatial used in join_station_to_gridmet,
    as an executable kd-tree with plane-distance pruning, together with a
    brute-force nearest-neighbor scan taken from the spec's contract;
  * the per-station match loop of join_station_to_gridmet with its bare
    try/except (a fallible query returning Option), the GRIDMET_ID column
    astype(int) conversion, the pandas inner merge on GRIDMET_ID and the
    final column reindex;
  * the gridmet-file existence check of main;
  * the file-name matching loop of read_station_list.
Python exceptions are modelled with Except PyError; printed diagnostics are
modelled as explicit logs.
-/

/-- Exceptions raised by the modelled code paths of prep_input.py. -/
inductive PyError where
  | fileNotFound
  | attributeError
  | valueError
  | indexError
  deriving DecidableEq, Repr

/-- One row of the condensed station table built by read_station_list. -/
structure StationRow where
  FID : Int
  STATION_LAT : ℚ
  STATION_LON : ℚ
  STATION_ELEV_M : ℚ
  STATION_FILE_PATH : String
  deriving DecidableEq, Repr

/-- One row of the gridMET cell metadata table (gridmet_cell_data.csv). -/
structure GridmetRow where
  GRIDMET_ID : Int
  LAT : ℚ
  LON : ℚ
  ELEV_M : ℚ
  deriving DecidableEq, Repr

/-- One row of the merged output table after the final reindex. -/
structure OutRow where
  GRIDMET_ID : Int
  LAT : ℚ
  LON : ℚ
  ELEV_M : ℚ
  FID : Int
  STATION_LAT : ℚ
  STATION_LON : ℚ
  STATION_ELEV_M : ℚ
  STATION_FILE_PATH : String
  deriving DecidableEq, Repr

/-- The fixed column list passed to out_df.reindex in join_station_to_gridmet. -/
def outputColumns : List String :=
  ["GRIDMET_ID", "LAT", "LON", "ELEV_M", "FID",
   "STATION_LAT", "STATION_LON", "STATION_ELEV_M", "STATION_FILE_PATH"]

/-- The output table: header (column order) plus rows. -/
structure OutTable where
  header : List String
  rows : List OutRow
  deriving DecidableEq, Repr

/-! ## Centroid calculator (gridMET_centroid) -/

/-- Grid origin longitude constant from gridMET_centroid. -/
def gridmet_lon : ℚ := -124.78749996666667

/-- Grid origin latitude constant from gridMET_centroid. -/
def gridmet_lat : ℚ := 25.04583333333334

/-- Grid cell size constant from gridMET_centroid. -/
def gridmet_cs : ℚ := 0.041666666666666664

/-- Python int() applied to a rational: truncation toward zero. -/
def pyInt (q : ℚ) : ℤ :=
  if 0 ≤ q then ⌊q⌋ else -⌊-q⌋

/-- Centroid of the gridMET cell with lower-left corner (lat, lon):
int(abs(lat - origin) / cs) * cs + origin + cs / 2 on each axis. -/
def gridMET_centroid (lat lon : ℚ) : ℚ × ℚ :=
  ((pyInt (|lat - gridmet_lat| / gridmet_cs) : ℚ) * gridmet_cs + gridmet_lat + gridmet_cs / 2,
   (pyInt (|lon - gridmet_lon| / gridmet_cs) : ℚ) * gridmet_cs + gridmet_lon + gridmet_cs / 2)

theorem gridmet_cs_pos : 0 < gridmet_cs := by norm_num [gridmet_cs]

theorem pyInt_aligned (o cs : ℚ) (hcs : 0 < cs) (k : ℕ) :
    pyInt (|(o + (k : ℚ) * cs) - o| / cs) = (k : ℤ) := by
  have h1 : (o + (k : ℚ) * cs) - o = (k : ℚ) * cs := by ring
  have h2 : (0 : ℚ) ≤ (k : ℚ) * cs := by positivity
  rw [h1, abs_of_nonneg h2, mul_div_assoc, div_self (ne_of_gt hcs), mul_one]
  unfold pyInt
  rw [if_pos (by positivity)]
  exact Int.floor_natCast k

/-- C3: for a corner aligned to the lattice (an exact multiple of the cell
size above the grid origin on each axis), the computed centroid sits at a
cell_size/2 offset from the corner, hence inside [corner, corner + cell_size)
on both axes. -/
theorem gridMET_centroid_in_cell (lat lon : ℚ) (k j : ℕ)
    (hlat : lat = gridmet_lat + (k : ℚ) * gridmet_cs)
    (hlon : lon = gridmet_lon + (j : ℚ) * gridmet_cs) :
    (gridMET_centroid lat lon).1 = lat + gridmet_cs / 2 ∧
    (gridMET_centroid lat lon).2 = lon + gridmet_cs / 2 ∧
    lat ≤ (gridMET_centroid lat lon).1 ∧
    (gridMET_centroid lat lon).1 < lat + gridmet_cs ∧
    lon ≤ (gridMET_centroid lat lon).2 ∧
    (gridMET_centroid lat lon).2 < lon + gridmet_cs := by
  have hcs := gridmet_cs_pos
  subst hlat hlon
  have e1 : (gridMET_centroid (gridmet_lat + (k : ℚ) * gridmet_cs)
      (gridmet_lon + (j : ℚ) * gridmet_cs)).1
      = (gridmet_lat + (k : ℚ) * gridmet_cs) + gridmet_cs / 2 := by
    unfold gridMET_centroid
    rw [pyInt_aligned gridmet_lat gridmet_cs hcs k]
    push_cast
    ring
  have e2 : (gridMET_centroid (gridmet_lat + (k : ℚ) * gridmet_cs)
      (gridmet_lon + (j : ℚ) * gridmet_cs)).2
      = (gridmet_lon + (j : ℚ) * gridmet_cs) + gridmet_cs / 2 := by
    unfold gridMET_centroid
    rw [pyInt_aligned gridmet_lon gridmet_cs hcs j]
    push_cast
    ring
  refine ⟨e1, e2, ?_, ?_, ?_, ?_⟩ <;> simp only [e1, e2] <;> linarith

/-- Witness for C3 at the concrete lattice corner k = 2, j = 3. -/
theorem gridMET_centroid_in_cell_witness :
    gridmet_lat + ((2 : ℕ) : ℚ) * gridmet_cs
      = gridmet_lat + ((2 : ℕ) : ℚ) * gridmet_cs ∧
    gridmet_lon + ((3 : ℕ) : ℚ) * gridmet_cs
      = gridmet_lon + ((3 : ℕ) : ℚ) * gridmet_cs ∧
    ((gridMET_centroid (gridmet_lat + ((2 : ℕ) : ℚ) * gridmet_cs)
        (gridmet_lon + ((3 : ℕ) : ℚ) * gridmet_cs)).1
      = (gridmet_lat + ((2 : ℕ) : ℚ) * gridmet_cs) + gridmet_cs / 2 ∧
    (gridMET_centroid (gridmet_lat + ((2 : ℕ) : ℚ) * gridmet_cs)
        (gridmet_lon + ((3 : ℕ) : ℚ) * gridmet_cs)).2
      = (gridmet_lon + ((3 : ℕ) : ℚ) * gridmet_cs) + gridmet_cs / 2 ∧
    gridmet_lat + ((2 : ℕ) : ℚ) * gridmet_cs
      ≤ (gridMET_centroid (gridmet_lat + ((2 : ℕ) : ℚ) * gridmet_cs)
          (gridmet_lon + ((3 : ℕ) : ℚ) * gridmet_cs)).1 ∧
    (gridMET_centroid (gridmet_lat + ((2 : ℕ) : ℚ) * gridmet_cs)
        (gridmet_lon + ((3 : ℕ) : ℚ) * gridmet_cs)).1
      < (gridmet_lat + ((2 : ℕ) : ℚ) * gridmet_cs) + gridmet_cs ∧
    gridmet_lon + ((3 : ℕ) : ℚ) * gridmet_cs
      ≤ (gridMET_centroid (gridmet_lat + ((2 : ℕ) : ℚ) * gridmet_cs)
          (gridmet_lon + ((3 : ℕ) : ℚ) * gridmet_cs)).2 ∧
    (gridMET_centroid (gridmet_lat + ((2 : ℕ) : ℚ) * gridmet_cs)
        (gridmet_lon + ((3 : ℕ) : ℚ) * gridmet_cs)).2
      < (gridmet_lon + ((3 : ℕ) : ℚ) * gridmet_cs) + gridmet_cs) :=
  ⟨rfl, rfl, gridMET_centroid_in_cell _ _ 2 3 rfl rfl⟩

theorem abs_mirror (a x : ℚ) : |2 * a - x - a| = |x - a| := by
  have h : 2 * a - x - a = -(x - a) := by ring
  rw [h, abs_neg]

/-- C10: gridMET_centroid depends only on the absolute distance of each
coordinate from the grid origin; reflecting either coordinate through the
corresponding origin value leaves the centroid unchanged. -/
theorem gridMET_centroid_mirror (lat lon : ℚ) :
    gridMET_centroid (2 * gridmet_lat - lat) lon = gridMET_centroid lat lon ∧
    gridMET_centroid lat (2 * gridmet_lon - lon) = gridMET_centroid lat lon := by
  constructor <;> simp only [gridMET_centroid, abs_mirror]

/-! ## Spatial index: model of scipy.spatial.KDTree build and query -/

/-- A planar point (lat, lon). -/
abbrev Pt := ℚ × ℚ

/-- An indexed point: position within the original centroid ordering plus
its coordinates. -/
abbrev IPt := ℕ × Pt

/-- Squared planar Euclidean distance on raw (lat, lon) pairs. -/
def sqDist (p q : Pt) : ℚ :=
  (p.1 - q.1) * (p.1 - q.1) + (p.2 - q.2) * (p.2 - q.2)

/-- Coordinate of a point along a splitting axis (false = lat, true = lon). -/
def coordAx (ax : Bool) (p : Pt) : ℚ :=
  if ax then p.2 else p.1

/-- k-d tree over indexed points. -/
inductive KD where
  | leaf (bucket : List IPt)
  | node (ax : Bool) (plane : ℚ) (left right : KD)
  deriving Repr

/-- All points stored in a k-d tree. -/
def KD.points : KD → List IPt
  | .leaf l => l
  | .node _ _ L R => L.points ++ R.points

/-- Build a k-d tree by recursive axis-aligned splitting, alternating the
splitting axis at each level; fuel bounds the recursion depth. -/
def kdBuild : ℕ → Bool → List IPt → KD
  | 0, _, l => .leaf l
  | _ + 1, _, [] => .leaf []
  | _ + 1, _, [p] => .leaf [p]
  | fuel + 1, ax, p :: q :: rest =>
    let m := coordAx ax p.2
    let ls := (p :: q :: rest).filter (fun r => decide (coordAx ax r.2 ≤ m))
    let rs := (p :: q :: rest).filter (fun r => !decide (coordAx ax r.2 ≤ m))
    .node ax m (kdBuild fuel (!ax) ls) (kdBuild fuel (!ax) rs)

/-- Choose the nearer of two candidate points to the query point. -/
def nearer (q : Pt) (a b : IPt) : IPt :=
  if sqDist q b.2 < sqDist q a.2 then b else a

/-- Linear nearest-neighbor scan of a leaf bucket. -/
def scanNearest (q : Pt) : List IPt → Option IPt
  | [] => none
  | p :: rest =>
    match scanNearest q rest with
    | none => some p
    | some b => some (nearer q p b)

/-- Combine the near-subtree query result with the (lazily evaluated) far
subtree: the far side is searched only when the squared distance to the
splitting plane is smaller than the best squared distance found so far. -/
def queryCombine (q : Pt) (planeSq : ℚ) (nearRes : Option IPt)
    (farRes : Unit → Option IPt) : Option IPt :=
  match nearRes with
  | none => farRes ()
  | some b =>
    if planeSq < sqDist q b.2 then
      match farRes () with
      | none => some b
      | some c => some (nearer q b c)
    else some b

/-- k-d tree nearest-neighbor query with plane-distance pruning. -/
def KD.query (q : Pt) : KD → Option IPt
  | .leaf l => scanNearest q l
  | .node ax m L R =>
    if coordAx ax q ≤ m then
      queryCombine q ((coordAx ax q - m) * (coordAx ax q - m))
        (KD.query q L) (fun _ => KD.query q R)
    else
      queryCombine q ((coordAx ax q - m) * (coordAx ax q - m))
        (KD.query q R) (fun _ => KD.query q L)

/-- Well-formedness of a k-d tree: every stored point lies on the proper
side of each splitting plane above it. -/
def KD.Good : KD → Prop
  | .leaf _ => True
  | .node ax m L R =>
    (∀ p ∈ L.points, coordAx ax p.2 ≤ m) ∧
    (∀ p ∈ R.points, m ≤ coordAx ax p.2) ∧ L.Good ∧ R.Good

theorem kdBuild_mem (fuel : ℕ) : ∀ (ax : Bool) (l : List IPt) (x : IPt),
    x ∈ (kdBuild fuel ax l).points ↔ x ∈ l := by
  induction fuel with
  | zero => intro ax l x; exact Iff.rfl
  | succ n ih =>
    intro ax l x
    match l with
    | [] => exact Iff.rfl
    | [p] => exact Iff.rfl
    | p :: q :: rest =>
      simp only [kdBuild, KD.points, List.mem_append, ih, List.mem_filter]
      constructor
      · rintro (⟨h, _⟩ | ⟨h, _⟩) <;> exact h
      · intro h
        by_cases hc : coordAx ax x.2 ≤ coordAx ax p.2
        · exact Or.inl ⟨h, by simpa using hc⟩
        · exact Or.inr ⟨h, by simpa using hc⟩

theorem kdBuild_good (fuel : ℕ) : ∀ (ax : Bool) (l : List IPt),
    (kdBuild fuel ax l).Good := by
  induction fuel with
  | zero => intro ax l; trivial
  | succ n ih =>
    intro ax l
    match l with
    | [] => trivial
    | [p] => trivial
    | p :: q :: rest =>
      refine ⟨?_, ?_, ih _ _, ih _ _⟩
      · intro r hr
        rw [kdBuild_mem] at hr
        have h := (List.mem_filter.mp hr).2
        simpa using h
      · intro r hr
        rw [kdBuild_mem] at hr
        have h := (List.mem_filter.mp hr).2
        have h2 : ¬ coordAx ax r.2 ≤ coordAx ax p.2 := by simpa using h
        exact le_of_lt (lt_of_not_le h2)

theorem nearer_spec (q : Pt) (a b : IPt) :
    (nearer q a b = a ∨ nearer q a b = b) ∧
    sqDist q (nearer q a b).2 ≤ sqDist q a.2 ∧
    sqDist q (nearer q a b).2 ≤ sqDist q b.2 := by
  unfold nearer
  by_cases h : sqDist q b.2 < sqDist q a.2
  · rw [if_pos h]
    exact ⟨Or.inr rfl, le_of_lt h, le_refl _⟩
  · rw [if_neg h]
    exact ⟨Or.inl rfl, le_refl _, le_of_not_lt h⟩

theorem scanNearest_eq_none (q : Pt) (l : List IPt) :
    scanNearest q l = none ↔ l = [] := by
  cases l with
  | nil => simp [scanNearest]
  | cons p rest =>
    cases h : scanNearest q rest <;> simp [scanNearest, h]

theorem scanNearest_spec (q : Pt) (l : List IPt) (b : IPt)
    (hb : scanNearest q l = some b) :
    b ∈ l ∧ ∀ p ∈ l, sqDist q b.2 ≤ sqDist q p.2 := by
  induction l generalizing b with
  | nil => cases hb
  | cons p rest ih =>
    rw [scanNearest] at hb
    cases h : scanNearest q rest with
    | none =>
      rw [h] at hb
      cases hb
      have he : rest = [] := (scanNearest_eq_none q rest).mp h
      subst he
      refine ⟨List.mem_singleton.mpr rfl, ?_⟩
      intro r hr
      rw [List.mem_singleton] at hr
      subst hr
      exact le_refl _
    | some c =>
      rw [h] at hb
      cases hb
      obtain ⟨hc1, hc2⟩ := ih c h
      obtain ⟨hor, hle1, hle2⟩ := nearer_spec q p c
      constructor
      · rcases hor with h1 | h1 <;> rw [h1]
        · exact List.mem_cons_self _ _
        · exact List.mem_cons_of_mem _ hc1
      · intro r hr
        rcases List.mem_cons.mp hr with h1 | h1
        · subst h1; exact hle1
        · exact le_trans hle2 (hc2 r h1)

theorem coordAx_sq_le_sqDist (ax : Bool) (q p : Pt) :
    (coordAx ax q - coordAx ax p) * (coordAx ax q - coordAx ax p) ≤ sqDist q p := by
  cases ax <;> simp only [coordAx, sqDist, if_true, if_false, Bool.false_eq_true] <;>
    nlinarith [mul_self_nonneg (q.1 - p.1), mul_self_nonneg (q.2 - p.2)]

theorem plane_sq_le_sqDist (ax : Bool) (q p : Pt) (m : ℚ)
    (h : (coordAx ax q ≤ m ∧ m ≤ coordAx ax p) ∨
         (coordAx ax p ≤ m ∧ m ≤ coordAx ax q)) :
    (coordAx ax q - m) * (coordAx ax q - m) ≤ sqDist q p := by
  refine le_trans ?_ (coordAx_sq_le_sqDist ax q p)
  rcases h with ⟨h1, h2⟩ | ⟨h1, h2⟩ <;> nlinarith

theorem queryCombine_spec (q : Pt) (planeSq : ℚ) (nearRes : Option IPt)
    (farRes : Unit → Option IPt) (nearPts farPts : List IPt)
    (hnone1 : nearRes = none ↔ nearPts = [])
    (hsome1 : ∀ b, nearRes = some b →
      b ∈ nearPts ∧ ∀ p ∈ nearPts, sqDist q b.2 ≤ sqDist q p.2)
    (hnone2 : farRes () = none ↔ farPts = [])
    (hsome2 : ∀ b, farRes () = some b →
      b ∈ farPts ∧ ∀ p ∈ farPts, sqDist q b.2 ≤ sqDist q p.2)
    (hside : ∀ p ∈ farPts, planeSq ≤ sqDist q p.2) :
    (queryCombine q planeSq nearRes farRes = none ↔ (nearPts = [] ∧ farPts = [])) ∧
    (∀ b, queryCombine q planeSq nearRes farRes = some b →
      (b ∈ nearPts ∨ b ∈ farPts) ∧
      ∀ p, (p ∈ nearPts ∨ p ∈ farPts) → sqDist q b.2 ≤ sqDist q p.2) := by
  cases hn : nearRes with
  | none =>
    have hne : nearPts = [] := hnone1.mp hn
    subst hne
    simp only [queryCombine]
    constructor
    · simpa using hnone2
    · intro b hb
      obtain ⟨h1, h2⟩ := hsome2 b hb
      refine ⟨Or.inr h1, ?_⟩
      rintro p (hp | hp)
      · cases hp
      · exact h2 p hp
  | some b0 =>
    obtain ⟨hb0mem, hb0min⟩ := hsome1 b0 hn
    by_cases hcut : planeSq < sqDist q b0.2
    · cases hf : farRes () with
      | none =>
        have hfe : farPts = [] := hnone2.mp hf
        subst hfe
        simp only [queryCombine, hf]
        rw [if_pos hcut]
        constructor
        · constructor
          · intro h; cases h
          · rintro ⟨h1, -⟩
            rw [h1] at hb0mem; cases hb0mem
        · intro b hb
          cases hb
          refine ⟨Or.inl hb0mem, ?_⟩
          rintro p (hp | hp)
          · exact hb0min p hp
          · cases hp
      | some c =>
        obtain ⟨hcmem, hcmin⟩ := hsome2 c hf
        simp only [queryCombine, hf]
        rw [if_pos hcut]
        constructor
        · constructor
          · intro h; cases h
          · rintro ⟨h1, -⟩
            rw [h1] at hb0mem; cases hb0mem
        · intro b hb
          cases hb
          obtain ⟨hor, hle1, hle2⟩ := nearer_spec q b0 c
          constructor
          · rcases hor with h1 | h1 <;> rw [h1]
            · exact Or.inl hb0mem
            · exact Or.inr hcmem
          · rintro p (hp | hp)
            · exact le_trans hle1 (hb0min p hp)
            · exact le_trans hle2 (hcmin p hp)
    · simp only [queryCombine]
      rw [if_neg hcut]
      constructor
      · constructor
        · intro h; cases h
        · rintro ⟨h1, -⟩
          rw [h1] at hb0mem; cases hb0mem
      · intro b hb
        cases hb
        refine ⟨Or.inl hb0mem, ?_⟩
        rintro p (hp | hp)
        · exact hb0min p hp
        · exact le_trans (le_of_not_lt hcut) (hside p hp)

/-- Correctness of the pruned k-d tree query on any well-formed tree: it
returns none exactly on an empty tree, and otherwise a stored point of
minimum squared distance to the query point. -/
theorem KD.query_spec (q : Pt) : ∀ (t : KD), t.Good →
    (t.query q = none ↔ t.points = []) ∧
    (∀ b, t.query q = some b →
      b ∈ t.points ∧ ∀ p ∈ t.points, sqDist q b.2 ≤ sqDist q p.2) := by
  intro t
  induction t with
  | leaf l =>
    intro _
    exact ⟨scanNearest_eq_none q l, fun b hb => scanNearest_spec q l b hb⟩
  | node ax m L R ihL ihR =>
    rintro ⟨hLside, hRside, hLgood, hRgood⟩
    obtain ⟨hLnone, hLsome⟩ := ihL hLgood
    obtain ⟨hRnone, hRsome⟩ := ihR hRgood
    by_cases hq : coordAx ax q ≤ m
    · have hfar : ∀ p ∈ R.points,
          (coordAx ax q - m) * (coordAx ax q - m) ≤ sqDist q p.2 := by
        intro p hp
        exact plane_sq_le_sqDist ax q p.2 m (Or.inl ⟨hq, hRside p hp⟩)
      have hmain := queryCombine_spec q ((coordAx ax q - m) * (coordAx ax q - m))
        (KD.query q L) (fun _ => KD.query q R) L.points R.points
        hLnone hLsome hRnone hRsome hfar
      have hq1 : KD.query q (KD.node ax m L R) =
          queryCombine q ((coordAx ax q - m) * (coordAx ax q - m))
            (KD.query q L) (fun _ => KD.query q R) := by
        rw [KD.query, if_pos hq]
      rw [hq1]
      constructor
      · rw [hmain.1]
        show L.points = [] ∧ R.points = [] ↔ L.points ++ R.points = []
        rw [List.append_eq_nil]
      · intro b hb
        obtain ⟨h1, h2⟩ := hmain.2 b hb
        constructor
        · show b ∈ L.points ++ R.points
          rw [List.mem_append]
          exact h1
        · intro p hp
          rw [show KD.points (.node ax m L R) = L.points ++ R.points from rfl,
            List.mem_append] at hp
          exact h2 p hp
    · have hq2 : m ≤ coordAx ax q := le_of_lt (lt_of_not_le hq)
      have hfar : ∀ p ∈ L.points,
          (coordAx ax q - m) * (coordAx ax q - m) ≤ sqDist q p.2 := by
        intro p hp
        exact plane_sq_le_sqDist ax q p.2 m (Or.inr ⟨hLside p hp, hq2⟩)
      have hmain := queryCombine_spec q ((coordAx ax q - m) * (coordAx ax q - m))
        (KD.query q R) (fun _ => KD.query q L) R.points L.points
        hRnone hRsome hLnone hLsome hfar
      have hq1 : KD.query q (KD.node ax m L R) =
          queryCombine q ((coordAx ax q - m) * (coordAx ax q - m))
            (KD.query q R) (fun _ => KD.query q L) := by
        rw [KD.query, if_neg hq]
      rw [hq1]
      constructor
      · rw [hmain.1]
        show R.points = [] ∧ L.points = [] ↔ L.points ++ R.points = []
        rw [List.append_eq_nil]
        tauto
      · intro b hb
        obtain ⟨h1, h2⟩ := hmain.2 b hb
        constructor
        · show b ∈ L.points ++ R.points
          rw [List.mem_append]
          tauto
        · intro p hp
          rw [show KD.points (.node ax m L R) = L.points ++ R.points from rfl,
            List.mem_append] at hp
          exact h2 p (Or.symm hp)

/-- The KDTree-based per-station nearest-neighbor query of
join_station_to_gridmet: build the tree over the indexed centroid list and
return the index (within the original centroid ordering) of the matched
centroid, as tree.query(pt)[1] does. -/
def nnQuery (pts : List Pt) (q : Pt) : Option ℕ :=
  ((kdBuild pts.length false pts.enum).query q).map (fun b => b.1)

/-- Modelled from the spec (refinement baseline, spec section 4.2): given
grid-cell centroids and a station point, return the index within the
original centroid ordering of a closest centroid under Euclidean distance,
by brute-force scan; first minimum wins. -/
def bruteNearest (q : Pt) : List IPt → Option IPt
  | [] => none
  | p :: rest =>
    match bruteNearest q rest with
    | none => some p
    | some b => if sqDist q p.2 ≤ sqDist q b.2 then some p else some b

/-- Modelled from the spec: brute-force nearest-neighbor index for a station
point among the original centroid ordering. -/
def bruteForceNN (pts : List Pt) (q : Pt) : Option ℕ :=
  (bruteNearest q pts.enum).map (fun b => b.1)

theorem bruteNearest_eq_none (q : Pt) (l : List IPt) :
    bruteNearest q l = none ↔ l = [] := by
  cases l with
  | nil => simp [bruteNearest]
  | cons p rest =>
    rw [bruteNearest]
    cases h : bruteNearest q rest with
    | none => simp
    | some c =>
      by_cases hle : sqDist q p.2 ≤ sqDist q c.2 <;> simp [hle]

theorem bruteNearest_spec (q : Pt) (l : List IPt) (b : IPt)
    (hb : bruteNearest q l = some b) :
    b ∈ l ∧ ∀ p ∈ l, sqDist q b.2 ≤ sqDist q p.2 := by
  induction l generalizing b with
  | nil => cases hb
  | cons p rest ih =>
    rw [bruteNearest] at hb
    cases h : bruteNearest q rest with
    | none =>
      rw [h] at hb
      cases hb
      have he : rest = [] := (bruteNearest_eq_none q rest).mp h
      subst he
      refine ⟨List.mem_singleton.mpr rfl, ?_⟩
      intro r hr
      rw [List.mem_singleton] at hr
      subst hr
      exact le_refl _
    | some c =>
      rw [h] at hb
      have hb2 : (if sqDist q p.2 ≤ sqDist q c.2 then some p else some c)
          = some b := hb
      obtain ⟨hc1, hc2⟩ := ih c h
      by_cases hle : sqDist q p.2 ≤ sqDist q c.2
      · rw [if_pos hle] at hb2
        cases hb2
        refine ⟨List.mem_cons_self _ _, ?_⟩
        intro r hr
        rcases List.mem_cons.mp hr with h1 | h1
        · subst h1; exact le_refl _
        · exact le_trans hle (hc2 r h1)
      · rw [if_neg hle] at hb2
        cases hb2
        refine ⟨List.mem_cons_of_mem _ hc1, ?_⟩
        intro r hr
        rcases List.mem_cons.mp hr with h1 | h1
        · subst h1; exact le_of_lt (lt_of_not_le hle)
        · exact hc2 r h1

theorem enum_ne_nil_of_ne_nil {α : Type} (l : List α) (h : l ≠ []) :
    l.enum ≠ [] := by
  intro he
  apply h
  have hl := congrArg List.length he
  rw [List.enum_length] at hl
  exact List.length_eq_zero.mp hl

/-- C4: on every nonempty centroid list, the KDTree-based query and the
brute-force scan both return a valid index of the original ordering, and the
two returned centroids are at the same, minimal, squared Euclidean distance
from the station point: the spatial index refines the brute-force contract
up to arbitrary tie-breaking. -/
theorem nnQuery_eq_bruteForceNN (pts : List Pt) (q : Pt) (h : pts ≠ []) :
    ∃ (i j : ℕ) (pi pj : Pt), nnQuery pts q = some i ∧ bruteForceNN pts q = some j ∧
      pts[i]? = some pi ∧ pts[j]? = some pj ∧
      sqDist q pi = sqDist q pj ∧
      ∀ (k : ℕ) (pk : Pt), pts[k]? = some pk → sqDist q pi ≤ sqDist q pk := by
  have henum : pts.enum ≠ [] := enum_ne_nil_of_ne_nil pts h
  set t := kdBuild pts.length false pts.enum with ht
  have hmem : ∀ x : IPt, x ∈ t.points ↔ x ∈ pts.enum :=
    kdBuild_mem pts.length false pts.enum
  obtain ⟨hnone, hsome⟩ := KD.query_spec q t (kdBuild_good pts.length false pts.enum)
  have htne : t.points ≠ [] := by
    obtain ⟨x, hx⟩ := List.exists_mem_of_ne_nil pts.enum henum
    intro hnil
    rw [← hmem] at hx
    rw [hnil] at hx
    cases hx
  cases hq : t.query q with
  | none => exact absurd (hnone.mp hq) htne
  | some b =>
    obtain ⟨hbmem, hbmin⟩ := hsome b hq
    cases hbf : bruteNearest q pts.enum with
    | none => exact absurd ((bruteNearest_eq_none q pts.enum).mp hbf) henum
    | some c =>
      obtain ⟨hcmem, hcmin⟩ := bruteNearest_spec q pts.enum c hbf
      refine ⟨b.1, c.1, b.2, c.2, ?_, ?_, ?_, ?_, ?_, ?_⟩
      · rw [nnQuery, ← ht, hq]; rfl
      · rw [bruteForceNN, hbf]; rfl
      · exact List.mk_mem_enum_iff_getElem?.mp ((hmem b).mp hbmem)
      · exact List.mk_mem_enum_iff_getElem?.mp hcmem
      · refine le_antisymm ?_ ?_
        · exact hbmin c ((hmem c).mpr hcmem)
        · exact hcmin b ((hmem b).mp hbmem)
      · intro k pk hk
        have hkmem : (k, pk) ∈ pts.enum := List.mk_mem_enum_iff_getElem?.mpr hk
        exact hbmin (k, pk) ((hmem _).mpr hkmem)

/-! ## join_station_to_gridmet: match loop, astype(int), merge, reindex -/

/-- The per-station loop of join_station_to_gridmet: each station row in
order receives the result of the fallible nearest-neighbor query as its
GRIDMET_ID cell (none models the NaN left behind when the try block raises,
in which case the bare except prints its diagnostic and the loop continues).
The second component is the log of FIDs named in failure diagnostics. -/
def matchLoop (query : StationRow → Option ℕ) :
    List StationRow → List (StationRow × Option ℕ) × List Int
  | [] => ([], [])
  | s :: rest =>
    match query s with
    | some i =>
      ((s, some i) :: (matchLoop query rest).1, (matchLoop query rest).2)
    | none =>
      ((s, none) :: (matchLoop query rest).1, s.FID :: (matchLoop query rest).2)

/-- All-or-nothing collection of the assigned GRIDMET_ID column values. -/
def collectAssigned : List (StationRow × Option ℕ) → Option (List (StationRow × ℕ))
  | [] => some []
  | (s, some i) :: rest => (collectAssigned rest).map (fun l => (s, i) :: l)
  | (_, none) :: _ => none

/-- stations.GRIDMET_ID.astype(int): accessing the column raises
AttributeError when no assignment ever created it, and converting a column
that still contains NaN raises ValueError. -/
def astypeGridmetId (l : List (StationRow × Option ℕ)) :
    Except PyError (List (StationRow × ℕ)) :=
  if l.all (fun p => p.2.isNone) then .error .attributeError
  else
    match collectAssigned l with
    | some l2 => .ok l2
    | none => .error .valueError

/-- One merged and reindexed output row: grid attributes from the gridMET
metadata row, station attributes from the station row. -/
def mkOutRow (s : StationRow) (g : GridmetRow) : OutRow :=
  ⟨g.GRIDMET_ID, g.LAT, g.LON, g.ELEV_M, s.FID,
   s.STATION_LAT, s.STATION_LON, s.STATION_ELEV_M, s.STATION_FILE_PATH⟩

/-- stations.merge(gridmet_meta, on='GRIDMET_ID'): inner join, preserving
the left (station) row order, pairing each station with every gridMET row
whose GRIDMET_ID equals the station's assigned identifier. -/
def mergeOnGridmetId (matched : List (StationRow × ℕ))
    (gridmet : List GridmetRow) : List OutRow :=
  matched.flatMap (fun p =>
    (gridmet.filter (fun g => decide (g.GRIDMET_ID = (p.2 : Int)))).map (mkOutRow p.1))

/-- join_station_to_gridmet on in-memory tables, parametric in the fallible
per-station query: the printed failure log, plus either the reindexed
output table or the exception raised after the loop. -/
def join_station_to_gridmet (query : StationRow → Option ℕ)
    (stations : List StationRow) (gridmet : List GridmetRow) :
    List Int × Except PyError OutTable :=
  let res := matchLoop query stations
  match astypeGridmetId res.1 with
  | .error e => (res.2, .error e)
  | .ok matched => (res.2, .ok ⟨outputColumns, mergeOnGridmetId matched gridmet⟩)

/-- Centroids of the gridMET metadata rows, in original row order. -/
def centroidPts (gridmet : List GridmetRow) : List Pt :=
  gridmet.map (fun g => gridMET_centroid g.LAT g.LON)

/-- The query actually issued per station: KDTree over the centroids,
queried at the station's (lat, lon). -/
def kdQueryStation (gridmet : List GridmetRow) (s : StationRow) : Option ℕ :=
  nnQuery (centroidPts gridmet) (s.STATION_LAT, s.STATION_LON)

/-- The full match step of the pipeline. -/
def matchStep (stations : List StationRow) (gridmet : List GridmetRow) :
    List Int × Except PyError OutTable :=
  join_station_to_gridmet (kdQueryStation gridmet) stations gridmet

/-- Resolution of the gridMET metadata path in main: an absent or empty
argument falls back to the default file name in the working directory. -/
def effectiveGridmetPath : Option String → String
  | none => "gridmet_cell_data.csv"
  | some s => if s = "" then "gridmet_cell_data.csv" else s

/-- main: check that the gridMET metadata file exists (raising
FileNotFoundError before any station processing otherwise), then run the
match step. existingFiles abstracts the file system contents. -/
def PrepInput.main (gridmet_meta_file : Option String) (existingFiles : List String)
    (stations : List StationRow) (gridmet : List GridmetRow) :
    List Int × Except PyError OutTable :=
  if effectiveGridmetPath gridmet_meta_file ∈ existingFiles then
    matchStep stations gridmet
  else
    ([], .error .fileNotFound)

/-- C1 (divergence evidence): two stations, of which only the first fails
its query; the loop logs the diagnostic for FID 1 and continues with FID 2,
but the GRIDMET_ID astype(int) conversion after the loop then raises
ValueError on the NaN left behind, so no output table is produced at all —
the whole batch aborts instead of skipping only the failed station. -/
theorem join_aborts_after_single_query_failure :
    join_station_to_gridmet
      (fun s => if s.FID = 1 then none else some 0)
      [⟨1, 40, -120, 100, "a.csv"⟩, ⟨2, 41, -119, 200, "b.csv"⟩]
      [⟨0, 40, -120, 90⟩]
      = ([1], .error .valueError) := by
  with_unfolding_all rfl

/-- C8: the match step is a pure function of its two input tables — two
runs on equal station lists and grid metadata return identical failure logs
and identical output tables. -/
theorem matchStep_deterministic (s1 s2 : List StationRow)
    (g1 g2 : List GridmetRow) (hs : s1 = s2) (hg : g1 = g2) :
    matchStep s1 g1 = matchStep s2 g2 := by
  subst hs; subst hg; rfl

/-- Witness for C8 on concrete equal inputs. -/
theorem matchStep_deterministic_witness :
    ([⟨1, 40, -120, 100, "a.csv"⟩] : List StationRow)
      = [⟨1, 40, -120, 100, "a.csv"⟩] ∧
    ([⟨0, 40, -120, 90⟩] : List GridmetRow) = [⟨0, 40, -120, 90⟩] ∧
    matchStep [⟨1, 40, -120, 100, "a.csv"⟩] [⟨0, 40, -120, 90⟩]
      = matchStep [⟨1, 40, -120, 100, "a.csv"⟩] [⟨0, 40, -120, 90⟩] :=
  ⟨rfl, rfl, matchStep_deterministic _ _ _ _ rfl rfl⟩

/-! ## Inversion lemmas for the join pipeline -/

theorem matchLoop_mem (query : StationRow → Option ℕ) :
    ∀ (stations : List StationRow) (p : StationRow × Option ℕ),
      p ∈ (matchLoop query stations).1 → p.1 ∈ stations ∧ p.2 = query p.1 := by
  intro stations
  induction stations with
  | nil => intro p hp; cases hp
  | cons s rest ih =>
    intro p hp
    cases hq : query s with
    | some i =>
      simp only [matchLoop, hq] at hp
      rcases List.mem_cons.mp hp with h1 | h1
      · subst h1
        exact ⟨List.mem_cons_self _ _, hq.symm⟩
      · obtain ⟨h2, h3⟩ := ih p h1
        exact ⟨List.mem_cons_of_mem _ h2, h3⟩
    | none =>
      simp only [matchLoop, hq] at hp
      rcases List.mem_cons.mp hp with h1 | h1
      · subst h1
        exact ⟨List.mem_cons_self _ _, hq.symm⟩
      · obtain ⟨h2, h3⟩ := ih p h1
        exact ⟨List.mem_cons_of_mem _ h2, h3⟩

theorem matchLoop_fst (query : StationRow → Option ℕ) :
    ∀ stations : List StationRow,
      ((matchLoop query stations).1).map (fun p => p.1) = stations := by
  intro stations
  induction stations with
  | nil => rfl
  | cons s rest ih =>
    cases hq : query s <;> simp [matchLoop, hq, ih]

theorem collectAssigned_mem :
    ∀ (l : List (StationRow × Option ℕ)) (m : List (StationRow × ℕ)),
      collectAssigned l = some m → ∀ p ∈ m, (p.1, some p.2) ∈ l := by
  intro l
  induction l with
  | nil =>
    intro m hm p hp
    simp only [collectAssigned, Option.some.injEq] at hm
    subst hm
    cases hp
  | cons hd rest ih =>
    intro m hm p hp
    obtain ⟨s, o⟩ := hd
    cases o with
    | none =>
      have hm2 : (none : Option (List (StationRow × ℕ))) = some m := hm
      exact Option.noConfusion hm2
    | some i =>
      have hm2 : (collectAssigned rest).map (fun l => (s, i) :: l) = some m := hm
      cases hc : collectAssigned rest with
      | none => rw [hc] at hm2; exact Option.noConfusion hm2
      | some m2 =>
        rw [hc] at hm2
        have hm3 : some ((s, i) :: m2) = some m := hm2
        cases hm3
        rcases List.mem_cons.mp hp with h1 | h1
        · subst h1
          exact List.mem_cons_self _ _
        · exact List.mem_cons_of_mem _ (ih m2 hc p h1)

theorem collectAssigned_fst :
    ∀ (l : List (StationRow × Option ℕ)) (m : List (StationRow × ℕ)),
      collectAssigned l = some m →
      m.map (fun p => p.1) = l.map (fun p => p.1) := by
  intro l
  induction l with
  | nil =>
    intro m hm
    simp only [collectAssigned, Option.some.injEq] at hm
    subst hm
    rfl
  | cons hd rest ih =>
    intro m hm
    obtain ⟨s, o⟩ := hd
    cases o with
    | none =>
      have hm2 : (none : Option (List (StationRow × ℕ))) = some m := hm
      exact Option.noConfusion hm2
    | some i =>
      have hm2 : (collectAssigned rest).map (fun l => (s, i) :: l) = some m := hm
      cases hc : collectAssigned rest with
      | none => rw [hc] at hm2; exact Option.noConfusion hm2
      | some m2 =>
        rw [hc] at hm2
        have hm3 : some ((s, i) :: m2) = some m := hm2
        cases hm3
        simp only [List.map_cons, ih m2 hc]

theorem astypeGridmetId_ok (l : List (StationRow × Option ℕ))
    (m : List (StationRow × ℕ)) (h : astypeGridmetId l = .ok m) :
    collectAssigned l = some m := by
  unfold astypeGridmetId at h
  by_cases hall : l.all (fun p => p.2.isNone)
  · rw [if_pos hall] at h; cases h
  · rw [if_neg hall] at h
    cases hc : collectAssigned l with
    | none => rw [hc] at h; cases h
    | some m2 => rw [hc] at h; cases h; rfl

theorem join_ok_inv (query : StationRow → Option ℕ)
    (stations : List StationRow) (gridmet : List GridmetRow)
    (log : List Int) (t : OutTable)
    (h : join_station_to_gridmet query stations gridmet = (log, .ok t)) :
    ∃ matched : List (StationRow × ℕ),
      astypeGridmetId (matchLoop query stations).1 = .ok matched ∧
      log = (matchLoop query stations).2 ∧
      t = ⟨outputColumns, mergeOnGridmetId matched gridmet⟩ := by
  have h2 : (match astypeGridmetId (matchLoop query stations).1 with
    | Except.error e =>
      ((matchLoop query stations).2, (Except.error e : Except PyError OutTable))
    | Except.ok matched =>
      ((matchLoop query stations).2,
        Except.ok (OutTable.mk outputColumns (mergeOnGridmetId matched gridmet))))
      = (log, Except.ok t) := h
  cases ha : astypeGridmetId (matchLoop query stations).1 with
  | error e =>
    rw [ha] at h2
    have h4 : (Except.error e : Except PyError OutTable) = Except.ok t :=
      congrArg Prod.snd h2
    exact Except.noConfusion h4
  | ok matched =>
    rw [ha] at h2
    have h4 : (matchLoop query stations).2 = log := congrArg Prod.fst h2
    have h5 : (Except.ok (OutTable.mk outputColumns (mergeOnGridmetId matched gridmet))
        : Except PyError OutTable) = Except.ok t := congrArg Prod.snd h2
    cases h5
    exact ⟨matched, rfl, h4.symm, rfl⟩

theorem matched_query (query : StationRow → Option ℕ)
    (stations : List StationRow) (m : List (StationRow × ℕ))
    (h : astypeGridmetId (matchLoop query stations).1 = .ok m)
    (p : StationRow × ℕ) (hp : p ∈ m) :
    p.1 ∈ stations ∧ query p.1 = some p.2 := by
  have hc := astypeGridmetId_ok _ _ h
  have hmem := collectAssigned_mem _ _ hc p hp
  have h2 := matchLoop_mem query stations (p.1, some p.2) hmem
  exact ⟨h2.1, h2.2.symm⟩

/-- C2: every row of a produced output table pairs one input station with
the gridMET metadata row whose GRIDMET_ID equals the identifier assigned to
that station by the nearest-neighbor query: the grid lat/lon/elevation
values in the row are exactly those of that metadata row, attached via the
assigned identifier as the join key. -/
theorem output_row_attributes_join (query : StationRow → Option ℕ)
    (stations : List StationRow) (gridmet : List GridmetRow)
    (log : List Int) (t : OutTable)
    (h : join_station_to_gridmet query stations gridmet = (log, .ok t))
    (r : OutRow) (hr : r ∈ t.rows) :
    ∃ s ∈ stations, ∃ a : ℕ, query s = some a ∧ r.GRIDMET_ID = (a : Int) ∧
      r.FID = s.FID ∧ r.STATION_LAT = s.STATION_LAT ∧
      r.STATION_LON = s.STATION_LON ∧ r.STATION_ELEV_M = s.STATION_ELEV_M ∧
      r.STATION_FILE_PATH = s.STATION_FILE_PATH ∧
      ∃ g ∈ gridmet, g.GRIDMET_ID = (a : Int) ∧
        r.LAT = g.LAT ∧ r.LON = g.LON ∧ r.ELEV_M = g.ELEV_M := by
  obtain ⟨matched, ha, hlog, ht⟩ := join_ok_inv query stations gridmet log t h
  subst ht
  rw [show (OutTable.mk outputColumns (mergeOnGridmetId matched gridmet)).rows
    = mergeOnGridmetId matched gridmet from rfl, mergeOnGridmetId] at hr
  rcases List.mem_flatMap.mp hr with ⟨p, hpmem, hrp⟩
  rcases List.mem_map.mp hrp with ⟨g, hgmem, hgr⟩
  obtain ⟨hgin, hgid⟩ := List.mem_filter.mp hgmem
  have hgid2 : g.GRIDMET_ID = (p.2 : Int) := of_decide_eq_true hgid
  obtain ⟨hps, hpq⟩ := matched_query query stations matched ha p hpmem
  subst hgr
  exact ⟨p.1, hps, p.2, hpq, hgid2, rfl, rfl, rfl, rfl, rfl,
    g, hgin, hgid2, rfl, rfl, rfl⟩

/-- Witness for C2 on a concrete one-station, one-cell run. -/
theorem output_row_attributes_join_witness :
    join_station_to_gridmet (fun _ => some 0)
      [⟨7, 40, -120, 100, "x.csv"⟩] [⟨0, 39, -121, 95⟩]
      = ([], .ok ⟨outputColumns, [⟨0, 39, -121, 95, 7, 40, -120, 100, "x.csv"⟩]⟩) ∧
    (⟨0, 39, -121, 95, 7, 40, -120, 100, "x.csv"⟩ : OutRow)
      ∈ (OutTable.mk outputColumns
          [⟨0, 39, -121, 95, 7, 40, -120, 100, "x.csv"⟩]).rows ∧
    (∃ s ∈ [(⟨7, 40, -120, 100, "x.csv"⟩ : StationRow)], ∃ a : ℕ,
      (fun (_ : StationRow) => some 0) s = some a ∧
      (⟨0, 39, -121, 95, 7, 40, -120, 100, "x.csv"⟩ : OutRow).GRIDMET_ID = (a : Int) ∧
      (⟨0, 39, -121, 95, 7, 40, -120, 100, "x.csv"⟩ : OutRow).FID = s.FID ∧
      (⟨0, 39, -121, 95, 7, 40, -120, 100, "x.csv"⟩ : OutRow).STATION_LAT = s.STATION_LAT ∧
      (⟨0, 39, -121, 95, 7, 40, -120, 100, "x.csv"⟩ : OutRow).STATION_LON = s.STATION_LON ∧
      (⟨0, 39, -121, 95, 7, 40, -120, 100, "x.csv"⟩ : OutRow).STATION_ELEV_M = s.STATION_ELEV_M ∧
      (⟨0, 39, -121, 95, 7, 40, -120, 100, "x.csv"⟩ : OutRow).STATION_FILE_PATH = s.STATION_FILE_PATH ∧
      ∃ g ∈ [(⟨0, 39, -121, 95⟩ : GridmetRow)], g.GRIDMET_ID = (a : Int) ∧
        (⟨0, 39, -121, 95, 7, 40, -120, 100, "x.csv"⟩ : OutRow).LAT = g.LAT ∧
        (⟨0, 39, -121, 95, 7, 40, -120, 100, "x.csv"⟩ : OutRow).LON = g.LON ∧
        (⟨0, 39, -121, 95, 7, 40, -120, 100, "x.csv"⟩ : OutRow).ELEV_M = g.ELEV_M) :=
  ⟨by with_unfolding_all rfl, by simp,
    output_row_attributes_join (fun _ => some 0)
      [⟨7, 40, -120, 100, "x.csv"⟩] [⟨0, 39, -121, 95⟩] []
      ⟨outputColumns, [⟨0, 39, -121, 95, 7, 40, -120, 100, "x.csv"⟩]⟩
      (by with_unfolding_all rfl)
      ⟨0, 39, -121, 95, 7, 40, -120, 100, "x.csv"⟩ (by simp)⟩

/-! ## Counting lemmas for the inner merge -/

theorem nodup_filter_len_le_one {α β : Type} [DecidableEq β]
    (l : List α) (f : α → β) (b : β) (h : (l.map f).Nodup) :
    (l.filter (fun x => decide (f x = b))).length ≤ 1 := by
  induction l with
  | nil => simp
  | cons a rest ih =>
    rw [List.map_cons, List.nodup_cons] at h
    obtain ⟨hna, hrest⟩ := h
    rw [List.filter_cons]
    by_cases hab : f a = b
    · rw [if_pos (by simpa using hab)]
      have hz : rest.filter (fun x => decide (f x = b)) = [] := by
        rw [List.filter_eq_nil_iff]
        intro x hx hfx
        apply hna
        rw [List.mem_map]
        refine ⟨x, hx, ?_⟩
        rw [of_decide_eq_true hfx, hab]
      simp [hz]
    · rw [if_neg (by simpa using hab)]
      exact ih hrest

theorem block_filter_len (s : StationRow) (gl : List GridmetRow) (fid : Int) :
    ((gl.map (mkOutRow s)).filter (fun r => decide (r.FID = fid))).length
      = if s.FID = fid then gl.length else 0 := by
  induction gl with
  | nil => simp
  | cons g rest ih =>
    by_cases h : s.FID = fid <;>
      simp [mkOutRow, List.filter_cons, h, ih]

theorem mergeOnGridmetId_filter_le (gridmet : List GridmetRow)
    (hg : (gridmet.map (fun g => g.GRIDMET_ID)).Nodup) (fid : Int) :
    ∀ matched : List (StationRow × ℕ),
      ((mergeOnGridmetId matched gridmet).filter
        (fun r => decide (r.FID = fid))).length ≤
      (matched.filter (fun p => decide (p.1.FID = fid))).length := by
  intro matched
  induction matched with
  | nil => simp [mergeOnGridmetId]
  | cons p rest ih =>
    have hsplit : mergeOnGridmetId (p :: rest) gridmet
        = ((gridmet.filter (fun g => decide (g.GRIDMET_ID = (p.2 : Int)))).map
            (mkOutRow p.1)) ++ mergeOnGridmetId rest gridmet := by
      rw [mergeOnGridmetId, mergeOnGridmetId, List.flatMap_cons]
    rw [hsplit, List.filter_append, List.length_append, List.filter_cons]
    have hblock := block_filter_len p.1
      (gridmet.filter (fun g => decide (g.GRIDMET_ID = (p.2 : Int)))) fid
    by_cases hfid : p.1.FID = fid
    · rw [if_pos (by simpa using hfid)]
      rw [hblock, if_pos hfid]
      have hone : (gridmet.filter
          (fun g => decide (g.GRIDMET_ID = (p.2 : Int)))).length ≤ 1 :=
        nodup_filter_len_le_one gridmet (fun g => g.GRIDMET_ID) ((p.2 : ℕ) : Int) hg
      have := ih
      simp only [List.length_cons]
      omega
    · rw [if_neg (by simpa using hfid)]
      rw [hblock, if_neg hfid]
      have := ih
      omega

/-- C7: on any run that produces an output table from duplicate-free grid
identifiers and duplicate-free station FIDs, each station appears at most
once among the output rows: the join pairs every station with a single
assigned identifier and does not duplicate rows. -/
theorem station_appears_at_most_once (query : StationRow → Option ℕ)
    (stations : List StationRow) (gridmet : List GridmetRow)
    (log : List Int) (t : OutTable)
    (h : join_station_to_gridmet query stations gridmet = (log, .ok t))
    (hg : (gridmet.map (fun g => g.GRIDMET_ID)).Nodup)
    (hs : (stations.map (fun s => s.FID)).Nodup)
    (fid : Int) :
    (t.rows.filter (fun r => decide (r.FID = fid))).length ≤ 1 := by
  obtain ⟨matched, ha, hlog, ht⟩ := join_ok_inv query stations gridmet log t h
  subst ht
  have hfst : matched.map (fun p => p.1) = stations := by
    have h1 := collectAssigned_fst _ _ (astypeGridmetId_ok _ _ ha)
    rw [matchLoop_fst] at h1
    exact h1
  have hmf : (matched.map (fun p => p.1.FID)).Nodup := by
    have h2 : matched.map (fun p => p.1.FID) = stations.map (fun s => s.FID) := by
      rw [← hfst, List.map_map]
      rfl
    rw [h2]
    exact hs
  have hle := mergeOnGridmetId_filter_le gridmet hg fid matched
  have hone := nodup_filter_len_le_one matched (fun p => p.1.FID) fid hmf
  exact le_trans hle hone

/-- Witness for C7 on a concrete run. -/
theorem station_appears_at_most_once_witness :
    join_station_to_gridmet (fun _ => some 0)
      [⟨3, 42, -118, 100, "y.csv"⟩] [⟨0, 41, -117, 80⟩]
      = ([], .ok ⟨outputColumns, [⟨0, 41, -117, 80, 3, 42, -118, 100, "y.csv"⟩]⟩) ∧
    (([(⟨0, 41, -117, 80⟩ : GridmetRow)].map (fun g => g.GRIDMET_ID)).Nodup) ∧
    (([(⟨3, 42, -118, 100, "y.csv"⟩ : StationRow)].map (fun s => s.FID)).Nodup) ∧
    ((OutTable.mk outputColumns
        [⟨0, 41, -117, 80, 3, 42, -118, 100, "y.csv"⟩]).rows.filter
      (fun r => decide (r.FID = 3))).length ≤ 1 :=
  ⟨by with_unfolding_all rfl, by simp, by simp,
    station_appears_at_most_once (fun _ => some 0)
      [⟨3, 42, -118, 100, "y.csv"⟩] [⟨0, 41, -117, 80⟩] []
      ⟨outputColumns, [⟨0, 41, -117, 80, 3, 42, -118, 100, "y.csv"⟩]⟩
      (by with_unfolding_all rfl) (by simp) (by simp) 3⟩

/-! ## Row counting under positional grid identifiers -/

theorem nnQuery_lt_length (pts : List Pt) (q : Pt) (i : ℕ)
    (h : nnQuery pts q = some i) : i < pts.length := by
  unfold nnQuery at h
  cases hq : (kdBuild pts.length false pts.enum).query q with
  | none => rw [hq] at h; cases h
  | some b =>
    rw [hq] at h
    have hb : some b.1 = some i := h
    cases hb
    obtain ⟨hnone, hsome⟩ :=
      KD.query_spec q _ (kdBuild_good pts.length false pts.enum)
    have hmem := (hsome b hq).1
    rw [kdBuild_mem] at hmem
    have hget : pts[b.1]? = some b.2 :=
      List.mk_mem_enum_iff_getElem?.mp hmem
    obtain ⟨hlt, -⟩ := List.getElem?_eq_some.mp hget
    exact hlt

theorem mergeOnGridmetId_length (gridmet : List GridmetRow) :
    ∀ matched : List (StationRow × ℕ),
      (∀ p ∈ matched,
        (gridmet.filter (fun g => decide (g.GRIDMET_ID = (p.2 : Int)))).length = 1) →
      (mergeOnGridmetId matched gridmet).length = matched.length := by
  intro matched
  induction matched with
  | nil => intro _; rfl
  | cons p rest ih =>
    intro hall
    have hsplit : mergeOnGridmetId (p :: rest) gridmet
        = ((gridmet.filter (fun g => decide (g.GRIDMET_ID = (p.2 : Int)))).map
            (mkOutRow p.1)) ++ mergeOnGridmetId rest gridmet := by
      rw [mergeOnGridmetId, mergeOnGridmetId, List.flatMap_cons]
    rw [hsplit, List.length_append, List.length_map,
      hall p (List.mem_cons_self _ _),
      ih (fun p2 hp2 => hall p2 (List.mem_cons_of_mem _ hp2)),
      List.length_cons]
    omega

theorem filter_map_length {α β : Type} (l : List α) (f : α → β) (p : β → Bool) :
    ((l.map f).filter p).length = (l.filter (fun x => p (f x))).length := by
  induction l with
  | nil => rfl
  | cons x rest ih =>
    rw [List.map_cons, List.filter_cons, List.filter_cons]
    cases hp : p (f x) <;> simp [hp, ih]

theorem range_filter_cast_eq_one (len a : ℕ) (ha : a < len) :
    ((List.range len).filter
      (fun n : ℕ => decide ((n : Int) = (a : Int)))).length = 1 := by
  induction len with
  | zero => cases ha
  | succ n ih =>
    rw [List.range_succ, List.filter_append, List.length_append]
    by_cases h : a < n
    · rw [ih h]
      have h2 : ([n].filter (fun m : ℕ => decide ((m : Int) = (a : Int)))).length = 0 := by
        have hne : n ≠ a := by omega
        simp [hne]
      omega
    · have ha2 : a = n := by omega
      subst ha2
      have h0 : (List.range a).filter
          (fun n : ℕ => decide ((n : Int) = (a : Int))) = [] := by
        simp only [List.filter_eq_nil_iff, List.mem_range, decide_eq_true_eq,
          Nat.cast_inj]
        intro x hx
        omega
      rw [h0]
      simp

theorem filter_positional_len (gridmet : List GridmetRow)
    (hpos : gridmet.map (fun g => g.GRIDMET_ID)
      = List.map (fun n : ℕ => (n : Int)) (List.range gridmet.length))
    (a : ℕ) (ha : a < gridmet.length) :
    (gridmet.filter (fun g => decide (g.GRIDMET_ID = (a : Int)))).length = 1 := by
  have h1 := filter_map_length gridmet (fun g => g.GRIDMET_ID)
    (fun x => decide (x = (a : Int)))
  rw [← h1, hpos]
  have h3 := filter_map_length (List.range gridmet.length)
    (fun n : ℕ => (n : Int)) (fun x => decide (x = (a : Int)))
  rw [h3]
  exact range_filter_cast_eq_one _ _ ha

/-- C5: whenever the match step produces an output table, it has exactly
the nine columns GRIDMET_ID, LAT, LON, ELEV_M, FID, STATION_LAT,
STATION_LON, STATION_ELEV_M, STATION_FILE_PATH in that fixed order, and —
under grid metadata whose GRIDMET_ID equals its row position, as the code
comment 'index of nearest GridMET point, same as GRIDMET_ID' assumes — one
row per successfully matched station (a produced table means every station
was matched, so one row per input station). -/
theorem output_schema_and_rows (stations : List StationRow)
    (gridmet : List GridmetRow) (log : List Int) (t : OutTable)
    (hpos : gridmet.map (fun g => g.GRIDMET_ID)
      = List.map (fun n : ℕ => (n : Int)) (List.range gridmet.length))
    (h : matchStep stations gridmet = (log, .ok t)) :
    t.header = outputColumns ∧ t.rows.length = stations.length := by
  obtain ⟨matched, ha, hlog, ht⟩ :=
    join_ok_inv (kdQueryStation gridmet) stations gridmet log t h
  subst ht
  refine ⟨rfl, ?_⟩
  show (mergeOnGridmetId matched gridmet).length = stations.length
  have hcnt : ∀ p ∈ matched,
      (gridmet.filter (fun g => decide (g.GRIDMET_ID = (p.2 : Int)))).length = 1 := by
    intro p hp
    obtain ⟨hs, hq⟩ := matched_query _ stations matched ha p hp
    have h2 : nnQuery (centroidPts gridmet)
        (p.1.STATION_LAT, p.1.STATION_LON) = some p.2 := hq
    have hlt := nnQuery_lt_length _ _ _ h2
    rw [centroidPts, List.length_map] at hlt
    exact filter_positional_len gridmet hpos p.2 hlt
  rw [mergeOnGridmetId_length gridmet matched hcnt]
  have h1 := collectAssigned_fst _ _ (astypeGridmetId_ok _ _ ha)
  rw [matchLoop_fst] at h1
  calc matched.length = (matched.map (fun p => p.1)).length :=
        (List.length_map _ _).symm
    _ = stations.length := by rw [h1]

set_option maxRecDepth 40000 in
/-- Witness for C5 on a concrete successful one-station run with
positional grid identifiers. -/
theorem output_schema_and_rows_witness :
    ([(⟨0, 45, -120, 90⟩ : GridmetRow)].map (fun g => g.GRIDMET_ID)
      = List.map (fun n : ℕ => (n : Int))
          (List.range [(⟨0, 45, -120, 90⟩ : GridmetRow)].length)) ∧
    matchStep [⟨5, 45, -120, 100, "s.csv"⟩] [⟨0, 45, -120, 90⟩]
      = ([], .ok ⟨outputColumns, [⟨0, 45, -120, 90, 5, 45, -120, 100, "s.csv"⟩]⟩) ∧
    ((OutTable.mk outputColumns
        [⟨0, 45, -120, 90, 5, 45, -120, 100, "s.csv"⟩]).header = outputColumns ∧
      (OutTable.mk outputColumns
        [⟨0, 45, -120, 90, 5, 45, -120, 100, "s.csv"⟩]).rows.length
        = [(⟨5, 45, -120, 100, "s.csv"⟩ : StationRow)].length) :=
  ⟨by with_unfolding_all rfl, by with_unfolding_all rfl,
    output_schema_and_rows [⟨5, 45, -120, 100, "s.csv"⟩] [⟨0, 45, -120, 90⟩] []
      ⟨outputColumns, [⟨0, 45, -120, 90, 5, 45, -120, 100, "s.csv"⟩]⟩
      (by with_unfolding_all rfl) (by with_unfolding_all rfl)⟩

/-- Witness for C4: a 4 x 5 block of 20 centroids and one station point. -/
theorem nnQuery_eq_bruteForceNN_witness :
    ([((0:ℚ),(0:ℚ)), (1,0), (2,0), (3,0), (4,0),
      (0,1), (1,1), (2,1), (3,1), (4,1),
      (0,2), (1,2), (2,2), (3,2), (4,2),
      (0,3), (1,3), (2,3), (3,3), (4,3)] : List Pt) ≠ [] ∧
    (∃ (i j : ℕ) (pi pj : Pt),
      nnQuery [((0:ℚ),(0:ℚ)), (1,0), (2,0), (3,0), (4,0),
        (0,1), (1,1), (2,1), (3,1), (4,1),
        (0,2), (1,2), (2,2), (3,2), (4,2),
        (0,3), (1,3), (2,3), (3,3), (4,3)] ((5:ℚ)/2, (6:ℚ)/5) = some i ∧
      bruteForceNN [((0:ℚ),(0:ℚ)), (1,0), (2,0), (3,0), (4,0),
        (0,1), (1,1), (2,1), (3,1), (4,1),
        (0,2), (1,2), (2,2), (3,2), (4,2),
        (0,3), (1,3), (2,3), (3,3), (4,3)] ((5:ℚ)/2, (6:ℚ)/5) = some j ∧
      ([((0:ℚ),(0:ℚ)), (1,0), (2,0), (3,0), (4,0),
        (0,1), (1,1), (2,1), (3,1), (4,1),
        (0,2), (1,2), (2,2), (3,2), (4,2),
        (0,3), (1,3), (2,3), (3,3), (4,3)] : List Pt)[i]? = some pi ∧
      ([((0:ℚ),(0:ℚ)), (1,0), (2,0), (3,0), (4,0),
        (0,1), (1,1), (2,1), (3,1), (4,1),
        (0,2), (1,2), (2,2), (3,2), (4,2),
        (0,3), (1,3), (2,3), (3,3), (4,3)] : List Pt)[j]? = some pj ∧
      sqDist ((5:ℚ)/2, (6:ℚ)/5) pi = sqDist ((5:ℚ)/2, (6:ℚ)/5) pj ∧
      ∀ (k : ℕ) (pk : Pt),
        ([((0:ℚ),(0:ℚ)), (1,0), (2,0), (3,0), (4,0),
          (0,1), (1,1), (2,1), (3,1), (4,1),
          (0,2), (1,2), (2,2), (3,2), (4,2),
          (0,3), (1,3), (2,3), (3,3), (4,3)] : List Pt)[k]? = some pk →
        sqDist ((5:ℚ)/2, (6:ℚ)/5) pi ≤ sqDist ((5:ℚ)/2, (6:ℚ)/5) pk) :=
  ⟨List.cons_ne_nil _ _,
    nnQuery_eq_bruteForceNN _ _ (List.cons_ne_nil _ _)⟩

/-! ## main: gridMET metadata file existence check -/

theorem join_eq_match (query : StationRow → Option ℕ)
    (stations : List StationRow) (gridmet : List GridmetRow) :
    join_station_to_gridmet query stations gridmet
      = (match astypeGridmetId (matchLoop query stations).1 with
        | Except.error e =>
          ((matchLoop query stations).2, (Except.error e : Except PyError OutTable))
        | Except.ok matched =>
          ((matchLoop query stations).2,
            Except.ok (OutTable.mk outputColumns
              (mergeOnGridmetId matched gridmet)))) := rfl

theorem astypeGridmetId_ne_fileNotFound (l : List (StationRow × Option ℕ)) :
    astypeGridmetId l ≠ .error .fileNotFound := by
  unfold astypeGridmetId
  by_cases hall : l.all (fun p => p.2.isNone)
  · rw [if_pos hall]
    intro hc
    injection hc with h2
    cases h2
  · rw [if_neg hall]
    cases hc : collectAssigned l with
    | none =>
      intro h2
      injection h2 with h3
      cases h3
    | some m =>
      intro h2
      exact Except.noConfusion h2

theorem join_never_fileNotFound (query : StationRow → Option ℕ)
    (stations : List StationRow) (gridmet : List GridmetRow) :
    (join_station_to_gridmet query stations gridmet).2 ≠ .error .fileNotFound := by
  rw [join_eq_match]
  cases ha : astypeGridmetId (matchLoop query stations).1 with
  | error e =>
    intro hc
    have hc2 : (Except.error e : Except PyError OutTable)
        = Except.error PyError.fileNotFound := hc
    injection hc2 with h3
    exact astypeGridmetId_ne_fileNotFound _ (h3 ▸ ha)
  | ok matched =>
    intro hc
    have hc2 : (Except.ok (OutTable.mk outputColumns
        (mergeOnGridmetId matched gridmet)) : Except PyError OutTable)
        = Except.error PyError.fileNotFound := hc
    exact Except.noConfusion hc2

/-- C6: main raises FileNotFoundError exactly when the effective gridMET
metadata path — the given path, or the default gridmet_cell_data.csv when
none or an empty one is given — does not exist; it does so before any
station processing (empty log, no output), and when the file exists no
FileNotFoundError is ever raised. -/
theorem main_gridmet_file_check (g : Option String) (fs : List String)
    (stations : List StationRow) (gridmet : List GridmetRow) :
    (effectiveGridmetPath g ∉ fs →
      PrepInput.main g fs stations gridmet = ([], .error .fileNotFound)) ∧
    (effectiveGridmetPath g ∈ fs →
      (PrepInput.main g fs stations gridmet).2 ≠ .error .fileNotFound) := by
  constructor
  · intro h
    unfold PrepInput.main
    rw [if_neg h]
  · intro h
    unfold PrepInput.main
    rw [if_pos h]
    exact join_never_fileNotFound (kdQueryStation gridmet) stations gridmet

/-- Witness for C6: no file system entries, so the default path is missing
and main fails fast. -/
theorem main_gridmet_file_check_witness :
    effectiveGridmetPath none ∉ ([] : List String) ∧
    PrepInput.main none [] [] [] = ([], .error .fileNotFound) :=
  ⟨by simp, (main_gridmet_file_check none [] [] []).1 (by simp)⟩

/-! ## read_station_list: station-to-file matching loop -/

/-- Bool test: the second character list starts with the first. -/
def leadingEq : List Char → List Char → Bool
  | [], _ => true
  | _ :: _, [] => false
  | a :: as, b :: bs => a == b && leadingEq as bs

/-- Python substring containment sub in hay on character lists. -/
def containsSub (sub : List Char) : List Char → Bool
  | [] => leadingEq sub []
  | c :: t => leadingEq sub (c :: t) || containsSub sub t

/-- Python's substring test (station in s) on strings. -/
def strContains (hay sub : String) : Bool :=
  containsSub sub.toList hay.toList

/-- The station-to-file matching loop of read_station_list (lines 119-129):
[s for s in file_names if station in s][0] raises IndexError when no file
name contains the station name; otherwise the first match is assigned when
truthy (nonempty) and only the skip message is printed when falsy. First
component: the assignments, or the raised exception; second component: the
skip-message log. -/
def read_station_list (fileNames : List String) :
    List String → Except PyError (List (String × String)) × List String
  | [] => (.ok [], [])
  | st :: rest =>
    match fileNames.filter (fun s => strContains s st) with
    | [] => (.error .indexError, [])
    | m :: _ =>
      if m = "" then
        ((read_station_list fileNames rest).1,
          st :: (read_station_list fileNames rest).2)
      else
        (Except.map (fun l => (st, m) :: l) (read_station_list fileNames rest).1,
          (read_station_list fileNames rest).2)

theorem read_station_list_cons (fileNames : List String) (st : String)
    (rest : List String) :
    read_station_list fileNames (st :: rest)
      = (match fileNames.filter (fun s => strContains s st) with
        | [] => ((Except.error PyError.indexError :
            Except PyError (List (String × String))), ([] : List String))
        | m :: _ =>
          if m = "" then
            ((read_station_list fileNames rest).1,
              st :: (read_station_list fileNames rest).2)
          else
            (Except.map (fun l => (st, m) :: l)
              (read_station_list fileNames rest).1,
              (read_station_list fileNames rest).2)) := rfl

theorem read_station_list_error (fileNames : List String) (st : String)
    (hnone : ∀ f ∈ fileNames, strContains f st = false) :
    ∀ stations : List String, st ∈ stations →
      (read_station_list fileNames stations).1 = .error .indexError := by
  intro stations
  induction stations with
  | nil => intro h; cases h
  | cons s rest ih =>
    intro hmem
    rcases List.mem_cons.mp hmem with h1 | h1
    · subst h1
      have hfil : fileNames.filter (fun s2 => strContains s2 st) = [] := by
        rw [List.filter_eq_nil_iff]
        intro f hf
        simp [hnone f hf]
      rw [read_station_list_cons, hfil]
    · rw [read_station_list_cons]
      cases hfil : fileNames.filter (fun s2 => strContains s2 s) with
      | nil => rfl
      | cons m ms =>
        show (if m = "" then
            ((read_station_list fileNames rest).1,
              s :: (read_station_list fileNames rest).2)
          else
            (Except.map (fun l => (s, m) :: l)
              (read_station_list fileNames rest).1,
              (read_station_list fileNames rest).2)).1
          = Except.error PyError.indexError
        by_cases hm : m = ""
        · rw [if_pos hm]
          exact ih h1
        · rw [if_neg hm]
          show Except.map _ (read_station_list fileNames rest).1 = _
          rw [ih h1]
          rfl

theorem read_station_list_no_skip (fileNames : List String)
    (hne : ∀ f ∈ fileNames, f ≠ "") :
    ∀ stations : List String,
      (read_station_list fileNames stations).2 = [] := by
  intro stations
  induction stations with
  | nil => rfl
  | cons s rest ih =>
    rw [read_station_list_cons]
    cases hfil : fileNames.filter (fun s2 => strContains s2 s) with
    | nil => rfl
    | cons m ms =>
      have hm2 : m ∈ fileNames := by
        have hmf : m ∈ fileNames.filter (fun s2 => strContains s2 s) := by
          rw [hfil]
          exact List.mem_cons_self _ _
        exact (List.mem_filter.mp hmf).1
      show (if m = "" then
          ((read_station_list fileNames rest).1,
            s :: (read_station_list fileNames rest).2)
        else
          (Except.map (fun l => (s, m) :: l)
            (read_station_list fileNames rest).1,
            (read_station_list fileNames rest).2)).2 = []
      rw [if_neg (hne m hm2)]
      exact ih

/-- C9: a station name that is a substring of no file name makes the loop
of read_station_list raise IndexError (the [0] on the empty match list),
rather than printing the skip message and continuing; and the skip branch
is dead code — as long as directory entries are nonempty strings, as
os.listdir guarantees, the skip log is empty. -/
theorem read_station_list_skip_unreachable (fileNames stations : List String)
    (st : String) (hmem : st ∈ stations)
    (hnone : ∀ f ∈ fileNames, strContains f st = false)
    (hne : ∀ f ∈ fileNames, f ≠ "") :
    (read_station_list fileNames stations).1 = .error .indexError ∧
    (read_station_list fileNames stations).2 = [] :=
  ⟨read_station_list_error fileNames st hnone stations hmem,
    read_station_list_no_skip fileNames hne stations⟩

/-- Witness for C9: one file ab.csv, one station zz with no matching file. -/
theorem read_station_list_skip_unreachable_witness :
    ("zz" ∈ ["zz"]) ∧
    (∀ f ∈ ["ab.csv"], strContains f "zz" = false) ∧
    (∀ f ∈ ["ab.csv"], f ≠ "") ∧
    ((read_station_list ["ab.csv"] ["zz"]).1 = .error .indexError ∧
      (read_station_list ["ab.csv"] ["zz"]).2 = []) :=
  ⟨by decide, by decide, by decide,
    read_station_list_skip_unreachable ["ab.csv"] ["zz"] "zz"
      (by decide) (by decide) (by decide)⟩
